import Mathlib

/-!
Verification of the llmitm_v2 orchestration core against its specification.

This file shallowly embeds the Python source of the repository:
pure functions become Lean functions, mutation of runtime objects becomes
explicit state passing, Python exceptions become `Except` results, and the
external collaborators (regex engine, HTTP client, LLM agents, graph store)
become oracle parameters.  Each embedded definition is annotated with the
source file and function it translates.
-/

namespace LLMitm

/-! ## Python-semantics helpers -/

/-- Python `a or b` on strings: `a` when non-empty, else `b`.
Used for `result.stderr or result.stdout` in the orchestrator. -/
def pyOrStr (a b : String) : String :=
  if a = "" then b else a

/-- Python `x or d` on an optional int (`result.status_code or 0`):
`None` and `0` are falsy. -/
def pyOrInt (x : Option Int) (d : Int) : Int :=
  match x with
  | Option.none => d
  | Option.some c => if c = 0 then d else c

/-- Python truthiness of an `Optional[str]` field: `None` and `""` are falsy.
Used for `step.success_criteria` tests in the orchestrator. -/
def truthyOptStr (o : Option String) : Bool :=
  match o with
  | Option.none => false
  | Option.some s => s ≠ ""

/-- Python substring containment on character lists (`needle in hay`). -/
def hasSubChars (needle : List Char) : List Char → Bool
  | [] => needle.isEmpty
  | c :: rest => List.isPrefixOf needle (c :: rest) || hasSubChars needle rest

/-- Python `needle in hay` on strings. -/
def hasSubstr (needle hay : String) : Bool :=
  hasSubChars needle.data hay.data

/-- Python `s.lower()` (character-wise, as on the ASCII error texts the
classifier inspects). -/
def pyLower (s : String) : String :=
  String.mk (s.data.map Char.toLower)

/-- Python list indexing `xs[i]` returning `none` on out-of-range:
non-negative indices count from the front, negative indices from the back
(`xs[-1]` is the last element). -/
def pyIndex? {α : Type} (xs : List α) (i : Int) : Option α :=
  if 0 ≤ i then xs.get? i.toNat
  else if i.natAbs ≤ xs.length then xs.get? (xs.length - i.natAbs)
  else Option.none

/-! ## Enumerations (src/llmitm_v2/constants.py) -/

/-- CAMRO phases (constants.py, `StepPhase`). -/
inductive StepPhase where
  | CAPTURE | ANALYZE | MUTATE | REPLAY | OBSERVE
  deriving DecidableEq, Repr

/-- Handler dispatch keys (constants.py, `StepType`). -/
inductive StepType where
  | http_request | shell_command | regex_match | json_extract | response_compare
  deriving DecidableEq, Repr

/-- Self-repair failure classification tiers (constants.py, `FailureType`). -/
inductive FailureType where
  | transient_recoverable | transient_unrecoverable | systemic
  deriving DecidableEq, Repr

/-! ## Failure classifier (src/llmitm_v2/orchestrator/failure_classifier.py) -/

/-- Embeds `classify_failure(error_log, status_code)`: the Python function
lower-cases the error log, then tests the four rule groups in order and
falls through to `SYSTEMIC`. -/
def classify_failure (error_log : String) (status_code : Int) : FailureType :=
  let error_lower := pyLower error_log
  if [(429 : Int), 503].contains status_code then
    FailureType.transient_recoverable
  else if ["timeout", "timed out", "connection reset"].any
      (fun word => hasSubstr word error_lower) then
    FailureType.transient_recoverable
  else if [(401 : Int), 403, 404].contains status_code then
    FailureType.transient_unrecoverable
  else if ["session expired", "unauthorized", "forbidden"].any
      (fun word => hasSubstr word error_lower) then
    FailureType.transient_unrecoverable
  else
    FailureType.systemic

/-- Modelled from the spec wording of section 4.7: five rules evaluated
top-to-bottom over the lower-cased text, written as literal disjunctions.
Used only to compare against the source embedding `classify_failure`. -/
def classifySpecTiers (text : String) (code : Int) : FailureType :=
  let t := pyLower text
  if code = 429 ∨ code = 503 then FailureType.transient_recoverable
  else if hasSubstr "timeout" t ∨ hasSubstr "timed out" t ∨
      hasSubstr "connection reset" t then FailureType.transient_recoverable
  else if code = 401 ∨ code = 403 ∨ code = 404 then
    FailureType.transient_unrecoverable
  else if hasSubstr "session expired" t ∨ hasSubstr "unauthorized" t ∨
      hasSubstr "forbidden" t then FailureType.transient_unrecoverable
  else FailureType.systemic

/-! ## Parameter values

Step parameters are an open JSON-like map (`Dict[str, Any]` in step.py).
`Value` covers the shapes the interpolator distinguishes: strings, maps,
lists, and non-string leaves. -/

inductive Value where
  | str : String → Value
  | int : Int → Value
  | bool : Bool → Value
  | none : Value
  | list : List Value → Value
  | dict : List (String × Value) → Value
  deriving Repr

/-! ## Interpolation scanner (orchestrator.py, `_INTERPOLATION_RE` and
`Orchestrator._interpolate_params`)

The Python code substitutes every occurrence of the regex
`\x7b\x7bprevious_outputs\[(-?\d+)\]\x7d\x7d` in string leaves.  We model
strings as character lists and the regex substitution as a left-to-right
scanner over them: `re.sub` replaces leftmost non-overlapping matches. -/

/-- The fixed opening text of the interpolation token. -/
def tokHead : List Char := "\x7b\x7bprevious_outputs[".data

/-- The fixed closing text of the interpolation token. -/
def tokClose : List Char := "]\x7d\x7d".data

/-- Consume an expected literal from the front of a character list. -/
def stripChars : List Char → List Char → Option (List Char)
  | [], cs => Option.some cs
  | _ :: _, [] => Option.none
  | p :: ps, c :: cs => if p = c then stripChars ps cs else Option.none

/-- Longest digit run at the front (the `\d+` part of the regex). -/
def takeDigits : List Char → List Char × List Char
  | [] => ([], [])
  | c :: cs =>
    if c.isDigit then
      match takeDigits cs with
      | (ds, r) => (c :: ds, r)
    else ([], c :: cs)

/-- Decimal value of a digit run (`int(match.group(1))` up to sign). -/
def digitsToNat (ds : List Char) : Nat :=
  ds.foldl (fun acc c => acc * 10 + (c.toNat - '0'.toNat)) 0

/-- Consume the optional leading minus sign (the `-?` of the regex):
returns whether a sign was present and the remaining characters. -/
def parseSign (r1 : List Char) : Bool × List Char :=
  if r1.head? = Option.some '-' then (true, r1.tail) else (false, r1)

/-- Try to match one full interpolation token at the head of `cs`.
On success, returns the parsed signed index, the matched text
(`match.group(0)`), and the remaining characters. -/
def matchTokenAt (cs : List Char) : Option (Int × List Char × List Char) :=
  (stripChars tokHead cs).bind (fun r1 =>
    let sgn := (parseSign r1).1
    let ds := (takeDigits (parseSign r1).2).1
    let r3 := (takeDigits (parseSign r1).2).2
    if ds.isEmpty then Option.none
    else
      (stripChars tokClose r3).bind (fun r4 =>
        Option.some (if sgn then -(Int.ofNat (digitsToNat ds)) else Int.ofNat (digitsToNat ds),
          tokHead ++ (if sgn then ['-'] else []) ++ ds ++ tokClose, r4)))

/-- One replacement chosen by `replacer` in the Python code: resolve the
index against `previous_outputs`, keeping the matched text on `IndexError`. -/
def replaceTok (outs : List String) (idx : Int) (matched : List Char) : List Char :=
  match pyIndex? outs idx with
  | Option.some s => s.data
  | Option.none => matched

/-- Fueled left-to-right substitution scanner (`_INTERPOLATION_RE.sub`).
The fuel only serves structural recursion; `subChars` supplies enough. -/
def subGo (outs : List String) : Nat → List Char → List Char
  | _, [] => []
  | 0, cs => cs
  | fuel + 1, c :: rest =>
    match matchTokenAt (c :: rest) with
    | Option.some (idx, matched, after) =>
        replaceTok outs idx matched ++ subGo outs fuel after
    | Option.none => c :: subGo outs fuel rest

/-- `_INTERPOLATION_RE.sub(replacer, s)` on character lists. -/
def subChars (outs : List String) (cs : List Char) : List Char :=
  subGo outs cs.length cs

mutual

/-- Recursive leaf interpolation (`interpolate_value` in
`Orchestrator._interpolate_params`): strings containing the token head are
substituted, maps and lists recurse, other leaves pass through. -/
def interpolateValue (outs : List String) : Value → Value
  | Value.str s =>
      if hasSubstr (String.mk tokHead) s then
        Value.str (String.mk (subChars outs s.data))
      else Value.str s
  | Value.dict kvs => Value.dict (interpolatePairs outs kvs)
  | Value.list vs => Value.list (interpolateList outs vs)
  | Value.int n => Value.int n
  | Value.bool b => Value.bool b
  | Value.none => Value.none

def interpolateList (outs : List String) : List Value → List Value
  | [] => []
  | v :: vs => interpolateValue outs v :: interpolateList outs vs

def interpolatePairs (outs : List String) : List (String × Value) → List (String × Value)
  | [] => []
  | (k, v) :: kvs => (k, interpolateValue outs v) :: interpolatePairs outs kvs

end

/-! ### Segmented strings

To state what substitution does to every occurrence, we describe a string
as a list of segments: literal chunks and interpolation tokens.  A
well-formed segmentation has digit tokens and literal chunks that do not
contain (or start, spanning into the continuation) the token head. -/

inductive Seg where
  | lit : List Char → Seg
  | tok : Bool → List Char → Seg
  deriving DecidableEq, Repr

/-- Text of one segment. -/
def renderSeg : Seg → List Char
  | Seg.lit cs => cs
  | Seg.tok sgn ds => tokHead ++ (if sgn then ['-'] else []) ++ ds ++ tokClose

/-- Text of a segment list. -/
def renderSegs (segs : List Seg) : List Char :=
  (segs.map renderSeg).flatten

/-- The signed integer index denoted by a token segment. -/
def segIndex (sgn : Bool) (ds : List Char) : Int :=
  if sgn then -(Int.ofNat (digitsToNat ds)) else Int.ofNat (digitsToNat ds)

/-- What the substitution is specified to produce for one segment:
literals stay, tokens resolve via Python indexing, out-of-range tokens
stay literal. -/
def resolveSeg (outs : List String) : Seg → List Char
  | Seg.lit cs => cs
  | Seg.tok sgn ds => replaceTok outs (segIndex sgn ds) (renderSeg (Seg.tok sgn ds))

/-- A literal chunk is safe when no occurrence of the token head starts
inside it, even one spanning into the following text `cont`. -/
def litOkB (cs cont : List Char) : Bool :=
  (List.range cs.length).all (fun j => ! List.isPrefixOf tokHead (cs.drop j ++ cont))

/-- Well-formed segmentation. -/
def segsWF : List Seg → Bool
  | [] => true
  | Seg.lit cs :: rest => litOkB cs (renderSegs rest) && segsWF rest
  | Seg.tok _ ds :: rest => (!ds.isEmpty) && ds.all Char.isDigit && segsWF rest

/-- Concrete outputs list used to exercise the interpolation theorem. -/
def demoOuts : List String := ["first", "second"]

/-- Concrete segmentation: literal text around a negative in-range token and
an out-of-range token. -/
def demoSegs : List Seg :=
  [Seg.lit "a=".data, Seg.tok true ['1'], Seg.lit "&b=".data,
   Seg.tok false ['9', '9']]

/-! ## Data model (src/llmitm_v2/models)

Embedding-vector and timestamp fields are omitted: no claim mentions them
and they are produced by external collaborators. -/

/-- models/fingerprint.py `Fingerprint` (identity-bearing fields). -/
structure Fingerprint where
  hash : Option String := Option.none
  tech_stack : String
  auth_model : String
  endpoint_pattern : String
  security_signals : List String := []
  deriving Repr, DecidableEq

/-- models/step.py `Step`. -/
structure Step where
  order : Int
  phase : StepPhase
  type : StepType
  command : String
  parameters : List (String × Value) := []
  output_file : Option String := Option.none
  success_criteria : Option String := Option.none
  deterministic : Bool := true
  deriving Repr

/-- models/context.py `ExecutionContext`. -/
structure ExecutionContext where
  target_url : String
  session_tokens : List (String × String) := []
  previous_outputs : List String := []
  cookies : List (String × String) := []
  fingerprint : Fingerprint
  deriving Repr

/-- models/context.py `StepResult`. -/
structure StepResult where
  stdout : String := ""
  stderr : String := ""
  status_code : Option Int := Option.none
  success_criteria_matched : Bool := false
  deriving Repr, DecidableEq

/-- models/finding.py `Finding` (fields the orchestrator populates;
the randomly generated id is abstracted away). -/
structure Finding where
  observation : String
  severity : String
  evidence_summary : String
  target_url : String
  deriving Repr, DecidableEq

/-- models/action_graph.py `ActionGraph` (fields the orchestrator reads). -/
structure ActionGraph where
  id : Option String := Option.none
  vulnerability_type : String
  description : String
  steps : List Step
  deriving Repr

/-! ## Orchestrator (src/llmitm_v2/orchestrator/orchestrator.py)

Handlers may mutate the `ExecutionContext` (the HTTP handler stores
cookies and session tokens), so a handler is modelled as a function from
the running handler-call count, the step, and the context to a result and
an updated context.  The call count argument lets injected test handlers
behave differently per call, as in the specification's retry scenario.
Repair runs the LLM compile pipeline; it is modelled as an oracle that
may fail (`Option.none` models a raised exception). -/

/-- Handler oracle (`handler.execute(step, ctx)` plus context mutation),
restricted to non-raising executions.  This total model covers the loop's
control flow on runs where no exception escapes a handler; the
exception-aware model (`HandlerEFn`, `execLoopE` below) additionally
carries the raising paths (`get_handler`'s ValueError and handler-body
exceptions such as the regex handler's IndexError). -/
abbrev HandlerFn := Nat → Step → ExecutionContext → StepResult × ExecutionContext

/-- Repair oracle (`Orchestrator._repair`): receives the failing graph,
the failed step, the error log, the execution history
(`context.previous_outputs`) and the fingerprint. -/
abbrev RepairFn :=
  ActionGraph → Step → String → List String → Fingerprint → Option ActionGraph

/-- `Orchestrator._interpolate_params`: build the interpolated parameter
map and return a copy of the step with only `parameters` replaced
(`step.model_copy(update={"parameters": new_params})`). -/
def interpolate_params (step : Step) (ctx : ExecutionContext) : Step :=
  let new_params := step.parameters.map
    (fun kv => (kv.1, interpolateValue ctx.previous_outputs kv.2))
  { step with parameters := new_params }

/-- Step-failure test in `Orchestrator._execute`:
`result.stderr or (step.success_criteria and not result.success_criteria_matched)`
under Python truthiness. -/
def stepFailed (step : Step) (result : StepResult) : Bool :=
  (result.stderr != "") ||
    (truthyOptStr step.success_criteria && !result.success_criteria_matched)

/-- Finding built in `Orchestrator._execute` when success criteria match
on an OBSERVE step. -/
def mkFinding (step : Step) (result : StepResult) (target_url : String) : Finding :=
  { observation := "Success criteria matched at step " ++ toString step.order,
    severity := "medium",
    evidence_summary := result.stdout.take 500,
    target_url := target_url }

/-- Finding-recording guard in `Orchestrator._execute`:
`result.success_criteria_matched and step.success_criteria and step.phase == OBSERVE`. -/
def findingGuard (step : Step) (result : StepResult) : Bool :=
  result.success_criteria_matched && truthyOptStr step.success_criteria &&
    decide (step.phase = StepPhase.OBSERVE)

/-- Stable insertion into a step list sorted by `order` (helper for
`sorted(action_graph.steps, key=lambda s: s.order)`). -/
def insertByOrder (s : Step) : List Step → List Step
  | [] => [s]
  | t :: ts => if t.order < s.order then t :: insertByOrder s ts else s :: t :: ts

/-- `sorted(steps, key=lambda s: s.order)` — a stable sort by `order`. -/
def sortStepsByOrder (steps : List Step) : List Step :=
  steps.foldr insertByOrder []

/-- The fresh `ExecutionContext` the orchestrator installs at the start of
`_execute` and again after a repair: empty session tokens, previous
outputs and cookies. -/
def freshCtx (target_url : String) (fp : Fingerprint) : ExecutionContext :=
  { target_url := target_url, fingerprint := fp }

/-- Instrumented execution result (`ExecutionResult` of models/context.py,
plus ghost counters: `repairCount` counts successful repair-oracle calls
and `callCount` counts handler invocations). -/
structure ExecOut where
  success : Bool
  findings : List Finding
  steps_executed : Nat
  error_log : Option String
  repaired : Bool
  repairCount : Nat
  callCount : Nat
  deriving Repr, DecidableEq

/-- The `while` loop of `Orchestrator._execute` specialised to
`repaired = True` (the state after a repair): the loop body at lines
198-254 with the guard at line 223 active, so any step failure returns a
failed `ExecutionResult` immediately — no classification, no retry, no
second repair. -/
def execRepaired (h : HandlerFn) (target_url : String) (n : Nat)
    (ctx : ExecutionContext) (findings : List Finding) (se : Nat) (rc : Nat) :
    List Step → ExecOut
  | [] =>
    { success := true, findings := findings, steps_executed := se,
      error_log := Option.none, repaired := true, repairCount := rc,
      callCount := n }
  | step :: rest =>
    let interpolated := interpolate_params step ctx
    let result := (h n interpolated ctx).1
    let ctx1 := (h n interpolated ctx).2
    let findings1 :=
      if findingGuard step result then findings ++ [mkFinding step result target_url]
      else findings
    if stepFailed step result then
      { success := false, findings := findings1, steps_executed := se + 1,
        error_log := Option.some (pyOrStr result.stderr result.stdout),
        repaired := true, repairCount := rc, callCount := n + 1 }
    else
      execRepaired h target_url (n + 1)
        { ctx1 with previous_outputs := ctx1.previous_outputs ++ [result.stdout] }
        findings1 (se + 1) rc rest

/-- The `while` loop of `Orchestrator._execute` before any repair
(`repaired = False`), with `_handle_step_failure` inlined: on a
transient-recoverable failure the handler is re-invoked once on the
original (uninterpolated) step; a clean retry appends its stdout and the
loop advances; a failed retry escalates to systemic; systemic failures
call the repair oracle and on success restart `execRepaired` at the first
sorted step of the new graph with a fresh context; everything else
aborts. -/
def execLoop (h : HandlerFn) (rp : RepairFn) (target_url : String)
    (fp : Fingerprint) (ag : ActionGraph) (n : Nat) (ctx : ExecutionContext)
    (findings : List Finding) (se : Nat) : List Step → ExecOut
  | [] =>
    { success := true, findings := findings, steps_executed := se,
      error_log := Option.none, repaired := false, repairCount := 0,
      callCount := n }
  | step :: rest =>
    let interpolated := interpolate_params step ctx
    let result := (h n interpolated ctx).1
    let ctx1 := (h n interpolated ctx).2
    let findings1 :=
      if findingGuard step result then findings ++ [mkFinding step result target_url]
      else findings
    if stepFailed step result then
      let error_log := pyOrStr result.stderr result.stdout
      let ftype := classify_failure error_log (pyOrInt result.status_code 0)
      if ftype = FailureType.transient_recoverable then
        let retry := (h (n + 1) step ctx1).1
        let ctx2 := (h (n + 1) step ctx1).2
        if retry.stderr == "" then
          execLoop h rp target_url fp ag (n + 2)
            { ctx2 with previous_outputs := ctx2.previous_outputs ++ [retry.stdout] }
            findings1 (se + 1) rest
        else
          match rp ag step error_log ctx2.previous_outputs fp with
          | Option.some newAg =>
              execRepaired h target_url (n + 2) (freshCtx target_url fp)
                findings1 (se + 1) 1 (sortStepsByOrder newAg.steps)
          | Option.none =>
              { success := false, findings := findings1, steps_executed := se + 1,
                error_log := Option.some error_log, repaired := false,
                repairCount := 0, callCount := n + 2 }
      else if ftype = FailureType.transient_unrecoverable then
        { success := false, findings := findings1, steps_executed := se + 1,
          error_log := Option.some error_log, repaired := false,
          repairCount := 0, callCount := n + 1 }
      else
        match rp ag step error_log ctx1.previous_outputs fp with
        | Option.some newAg =>
            execRepaired h target_url (n + 1) (freshCtx target_url fp)
              findings1 (se + 1) 1 (sortStepsByOrder newAg.steps)
        | Option.none =>
            { success := false, findings := findings1, steps_executed := se + 1,
              error_log := Option.some error_log, repaired := false,
              repairCount := 0, callCount := n + 1 }
    else
      execLoop h rp target_url fp ag (n + 1)
        { ctx1 with previous_outputs := ctx1.previous_outputs ++ [result.stdout] }
        findings1 (se + 1) rest

/-- `Orchestrator._execute`: fresh context, steps sorted by order, loop. -/
def executeGraph (h : HandlerFn) (rp : RepairFn) (target_url : String)
    (fp : Fingerprint) (ag : ActionGraph) : ExecOut :=
  execLoop h rp target_url fp ag 0 (freshCtx target_url fp) [] 0
    (sortStepsByOrder ag.steps)

/-! ## Execution metrics (src/llmitm_v2/repository/graph_repository.py) -/

/-- The two counters `increment_execution_count` updates on the stored
ActionGraph node. -/
structure GraphMetrics where
  times_executed : Int
  times_succeeded : Int
  deriving Repr, DecidableEq

/-- `GraphRepository.increment_execution_count`: always add 1 to
`times_executed`; add 1 to `times_succeeded` only when `succeeded`. -/
def increment_execution_count (m : GraphMetrics) (succeeded : Bool) : GraphMetrics :=
  if succeeded then
    { m with times_executed := m.times_executed + 1,
             times_succeeded := m.times_succeeded + 1 }
  else
    { m with times_executed := m.times_executed + 1 }

/-! ## Python exceptions

Raised exceptions are modelled as `Except.error` values of this type. -/

inductive PyErr where
  | indexError (msg : String)
  | valueError (msg : String)
  | typeError (msg : String)
  deriving Repr, DecidableEq

/-! ## Fingerprinter (src/llmitm_v2/fingerprinter.py) -/

/-- Parsed request dict as produced by `Fingerprinter._parse_request`. -/
structure Request where
  method : String := "GET"
  path : String := "/"
  headers : List (String × String) := []
  body : String := ""
  deriving Repr, DecidableEq

/-- Python dict lookup `headers[k]` / membership `k in headers` on the
parsed header map (keys unique, insertion-ordered). -/
def headerGet (hs : List (String × String)) (k : String) : Option String :=
  (hs.find? (fun kv => kv.1 == k)).map Prod.snd

/-- Python `str.startswith`. -/
def pyStartsWith (s pre : String) : Bool :=
  List.isPrefixOf pre.data s.data

/-- Python `str.split()` (split on whitespace runs, dropping empties),
character level. -/
def splitWsChars (cs : List Char) : List (List Char) :=
  let f : Char → List Char × List (List Char) → List Char × List (List Char) :=
    fun c acc =>
      if c.isWhitespace then
        if acc.1.isEmpty then acc else ([], acc.1 :: acc.2)
      else (c :: acc.1, acc.2)
  let r := cs.foldr f ([], [])
  if r.1.isEmpty then r.2 else r.1 :: r.2

/-- Python `str.split()` on strings. -/
def pySplitWs (s : String) : List String :=
  (splitWsChars s.data).map String.mk

/-- The `auth_val.split()[0] if auth_val else "Unknown"` branch of
`_extract_auth_model`: an empty value is falsy and yields `"Unknown"`;
a non-empty all-whitespace value makes `split()` empty and `[0]` raise
IndexError. -/
def authSchemeWord (auth_val : String) : Except PyErr String :=
  if auth_val ≠ "" then
    match pySplitWs auth_val with
    | [] => Except.error (PyErr.indexError "list index out of range")
    | w :: _ => Except.ok w
  else Except.ok "Unknown"

/-- `Fingerprinter._extract_auth_model`: scan requests in order; the
first request carrying an `Authorization` header decides (Bearer, then
Basic, then the scheme word); otherwise a request carrying a `Cookie`
header decides `"Cookie-based"`; if no request carries either, `"Unknown"`. -/
def extract_auth_model : List Request → Except PyErr String
  | [] => Except.ok "Unknown"
  | r :: rest =>
    match headerGet r.headers "Authorization" with
    | Option.some auth_val =>
      if pyStartsWith auth_val "Bearer" then Except.ok "JWT Bearer"
      else if pyStartsWith auth_val "Basic" then Except.ok "Basic Auth"
      else authSchemeWord auth_val
    | Option.none =>
      match headerGet r.headers "Cookie" with
      | Option.some _ => Except.ok "Cookie-based"
      | Option.none => extract_auth_model rest

/-- The per-request decision of the amended C6 statement: what a single
request contributes to the scan (`none` when it carries neither header). -/
def requestAuthDecision (r : Request) : Option (Except PyErr String) :=
  match headerGet r.headers "Authorization" with
  | Option.some auth_val =>
    if pyStartsWith auth_val "Bearer" then Option.some (Except.ok "JWT Bearer")
    else if pyStartsWith auth_val "Basic" then Option.some (Except.ok "Basic Auth")
    else Option.some (authSchemeWord auth_val)
  | Option.none =>
    match headerGet r.headers "Cookie" with
    | Option.some _ => Option.some (Except.ok "Cookie-based")
    | Option.none => Option.none

/-- Python `path.strip("/")` at character level. -/
def stripCharList (c : Char) (cs : List Char) : List Char :=
  ((cs.dropWhile (fun x => x == c)).reverse.dropWhile (fun x => x == c)).reverse

/-- Python `str.split(sep)` (keeps empty parts, never returns an empty
list), character level. -/
def splitOnChar (sep : Char) (cs : List Char) : List (List Char) :=
  cs.foldr
    (fun c acc =>
      match acc with
      | [] => [[c]]
      | g :: gs => if c = sep then [] :: g :: gs else (c :: g) :: gs)
    [[]]

/-- The pattern key a request contributes in
`_extract_endpoint_pattern`: `/<first-segment>/*` when the first path
segment is non-empty. -/
def patternOfPath (path : String) : Option String :=
  match splitOnChar '/' (stripCharList '/' path.data) with
  | [] => Option.none
  | p0 :: _ =>
    if p0.isEmpty then Option.none
    else Option.some (String.mk ('/' :: p0 ++ "/*".data))

/-- `patterns[prefix] = patterns.get(prefix, 0) + 1` on an
insertion-ordered counter map. -/
def bumpAssoc (k : String) : List (String × Nat) → List (String × Nat)
  | [] => [(k, 1)]
  | kv :: t => if kv.1 == k then (kv.1, kv.2 + 1) :: t else kv :: bumpAssoc k t

/-- The counter map built by the `for request in requests` loop of
`_extract_endpoint_pattern`. -/
def buildPatterns (reqs : List Request) : List (String × Nat) :=
  reqs.foldl
    (fun acc r =>
      match patternOfPath r.path with
      | Option.some k => bumpAssoc k acc
      | Option.none => acc)
    []

/-- CPython `max(patterns, key=patterns.get)`: walk the keys in
insertion order, keeping the current key unless a strictly larger count
appears — the first maximal key wins. -/
def pyMaxBy : String × Nat → List (String × Nat) → String
  | best, [] => best.1
  | best, p :: rest => pyMaxBy (if best.2 < p.2 then p else best) rest

/-- `Fingerprinter._extract_endpoint_pattern`. -/
def extract_endpoint_pattern (reqs : List Request) : String :=
  match buildPatterns reqs with
  | [] => "/"
  | kv :: rest => pyMaxBy kv rest

/-- Largest count in a counter map (used to state the amended C7). -/
def maxCount : List (String × Nat) → Nat
  | [] => 0
  | kv :: t => Nat.max kv.2 (maxCount t)

/-! ## Regex-match handler (src/llmitm_v2/handlers/regex_match_handler.py)

The regex engine (`re.search`) is an external collaborator: it is
modelled as an oracle that may fail (invalid pattern) and whose match
object exposes `group(capture_group)` as a function of the raw
capture-group parameter value. -/

/-- `match.group(g)` accessor of a match object. -/
abbrev MatchGroups := Value → Except PyErr String

/-- `re.search(pattern, source)` oracle. -/
abbrev SearchFn := String → String → Except PyErr (Option MatchGroups)

/-- `step.parameters.get(k, default)`. -/
def paramGet (ps : List (String × Value)) (k : String) (d : Value) : Value :=
  match (ps.find? (fun kv => kv.1 == k)).map Prod.snd with
  | Option.some v => v
  | Option.none => d

/-- Python `==` between a parameter value and a string literal. -/
def valueEqStr (v : Value) (s : String) : Bool :=
  match v with
  | Value.str t => t == s
  | _ => false

/-- Strip surrounding whitespace. -/
def stripWs (cs : List Char) : List Char :=
  ((cs.dropWhile Char.isWhitespace).reverse.dropWhile Char.isWhitespace).reverse

/-- Python `int(s)` for strings: optional surrounding whitespace,
optional sign, at least one digit; otherwise ValueError. -/
def pyIntOfStr (s : String) : Except PyErr Int :=
  let t := stripWs s.data
  let sgnDs : Bool × List Char :=
    match t with
    | '-' :: ds => (true, ds)
    | '+' :: ds => (false, ds)
    | ds => (false, ds)
  if sgnDs.2 ≠ [] ∧ sgnDs.2.all Char.isDigit then
    Except.ok (if sgnDs.1 then -(Int.ofNat (digitsToNat sgnDs.2))
      else Int.ofNat (digitsToNat sgnDs.2))
  else Except.error (PyErr.valueError ("invalid literal for int() with base 10: " ++ s))

/-- Python `int(x)` on parameter values. -/
def pyInt : Value → Except PyErr Int
  | Value.int n => Except.ok n
  | Value.bool b => Except.ok (if b then 1 else 0)
  | Value.str s => pyIntOfStr s
  | _ => Except.error (PyErr.typeError "int() argument must be a string or a number")

/-- Python list indexing that raises IndexError when out of range. -/
def pyIndexE {α : Type} (xs : List α) (i : Int) : Except PyErr α :=
  match pyIndex? xs i with
  | Option.some x => Except.ok x
  | Option.none => Except.error (PyErr.indexError "list index out of range")

/-- `RegexMatchHandler.execute`: reads `pattern` (defaulting to
`step.command`), `source` (defaulting to `"last"`) and `capture_group`
(defaulting to 0); returns a stderr result when no previous outputs
exist; resolves the source output (raising on a bad or out-of-range
index), runs the regex oracle, and returns matched/unmatched results. -/
def regexMatchExecute (search : SearchFn) (step : Step)
    (ctx : ExecutionContext) : Except PyErr StepResult :=
  let patternV := paramGet step.parameters "pattern" (Value.str step.command)
  let sourceIndex := paramGet step.parameters "source" (Value.str "last")
  let captureGroup := paramGet step.parameters "capture_group" (Value.int 0)
  if ctx.previous_outputs.isEmpty then
    Except.ok { stderr := "No previous outputs available" }
  else
    let sourceE : Except PyErr String :=
      if valueEqStr sourceIndex "last" then pyIndexE ctx.previous_outputs (-1)
      else
        match pyInt sourceIndex with
        | Except.error e => Except.error e
        | Except.ok i => pyIndexE ctx.previous_outputs i
    match sourceE with
    | Except.error e => Except.error e
    | Except.ok source =>
      match patternV with
      | Value.str patternS =>
        match search patternS source with
        | Except.error e => Except.error e
        | Except.ok (Option.some groups) =>
          match groups captureGroup with
          | Except.error e => Except.error e
          | Except.ok out =>
            Except.ok { stdout := out, success_criteria_matched := true }
        | Except.ok Option.none =>
          Except.ok { stdout := "", success_criteria_matched := false }
      | _ => Except.error (PyErr.typeError "expected string pattern")

/-! ## Recon response_diff tool (src/llmitm_v2/tools/recon_tools.py)

The capture file is abstracted to its list of flows; JSON serialization
of the result object is abstracted to the structured report itself, and
`_safe_json` body parsing to the truncated body text.  Python `set`
iteration order in the header diffs is abstracted to first-list order. -/

structure FlowRequest where
  method : String
  pretty_url : String
  headers : List (String × String)
  content : Option String
  deriving Repr, DecidableEq

structure FlowResponse where
  status_code : Int
  headers : List (String × String)
  content : Option String
  deriving Repr, DecidableEq

structure Flow where
  request : FlowRequest
  response : Option FlowResponse
  deriving Repr, DecidableEq

/-- The fields of `_flow_detail(flow)` that `handle_response_diff`
reads. -/
structure FlowDetail where
  url : String
  status : Option Int
  headers : List (String × String)
  body : Option String
  deriving Repr, DecidableEq

def flowDetail (f : Flow) : FlowDetail :=
  { url := f.request.pretty_url,
    status := f.response.map FlowResponse.status_code,
    headers :=
      match f.response with
      | Option.some resp => resp.headers
      | Option.none => [],
    body :=
      match f.response with
      | Option.some resp =>
        match resp.content with
        | Option.some c => if c = "" then Option.none else Option.some (c.take 4000)
        | Option.none => Option.none
      | Option.none => Option.none }

def keysOf (hs : List (String × String)) : List String := hs.map Prod.fst

def headerKeyMem (k : String) (hs : List (String × String)) : Bool :=
  (keysOf hs).contains k

/-- The structural diff object `handle_response_diff` builds for two
in-range flows. -/
structure DiffReport where
  indexA : Int
  indexB : Int
  urlA : String
  urlB : String
  statusA : Option Int
  statusB : Option Int
  headersOnlyInA : List String
  headersOnlyInB : List String
  headerValueDiffs : List (String × String × String)
  bodyIdentical : Bool
  bodyAPreview : Option String
  bodyBPreview : Option String
  deriving Repr, DecidableEq

/-- The serialized result: either the explicit error object or the diff
report. -/
inductive DiffOutput where
  | errorObj (msg : String)
  | report (d : DiffReport)
  deriving Repr, DecidableEq

def mkDiff (a b : Int) (fa fb : FlowDetail) : DiffReport :=
  let bodyA := match fa.body with | Option.some s => s | Option.none => ""
  let bodyB := match fb.body with | Option.some s => s | Option.none => ""
  let identical := bodyA == bodyB
  { indexA := a, indexB := b, urlA := fa.url, urlB := fb.url,
    statusA := fa.status, statusB := fb.status,
    headersOnlyInA := (keysOf fa.headers).filter (fun k => ! headerKeyMem k fb.headers),
    headersOnlyInB := (keysOf fb.headers).filter (fun k => ! headerKeyMem k fa.headers),
    headerValueDiffs :=
      (fa.headers.filter (fun kv => headerKeyMem kv.1 fb.headers)).filterMap
        (fun kv =>
          match headerGet fb.headers kv.1 with
          | Option.some vb =>
            if kv.2 == vb then Option.none else Option.some (kv.1, kv.2, vb)
          | Option.none => Option.none),
    bodyIdentical := identical,
    bodyAPreview := if identical then Option.none else Option.some (bodyA.take 2000),
    bodyBPreview := if identical then Option.none else Option.some (bodyB.take 2000) }

/-- `handle_response_diff(mitm_file, flow_index_a, flow_index_b)`: the
guard checks only the upper bound (`flow_index_a >= len(flows) or
flow_index_b >= len(flows)`); indexing below the guard follows Python
list semantics and raises on a too-negative index. -/
def handle_response_diff (flows : List Flow) (a b : Int) :
    Except PyErr DiffOutput :=
  if a ≥ (flows.length : Int) ∨ b ≥ (flows.length : Int) then
    Except.ok (DiffOutput.errorObj
      ("Flow index out of range (total: " ++ toString flows.length ++ ")"))
  else
    match pyIndexE flows a with
    | Except.error e => Except.error e
    | Except.ok fa =>
      match pyIndexE flows b with
      | Except.error e => Except.error e
      | Except.ok fb =>
        Except.ok (DiffOutput.report (mkDiff a b (flowDetail fa) (flowDetail fb)))

/-! ## Exception-aware orchestrator

`_execute` has no try/except of its own: an exception raised by
`get_handler` (ValueError for an unregistered step type, registry.py:21,
called at orchestrator.py:201) or inside a handler body (e.g. the regex
handler's IndexError, regex_match_handler.py:24) propagates out of
`_execute`, and `Orchestrator.run` then raises before reaching
`increment_execution_count` at orchestrator.py:97.  This second model of
the same loop makes those raising paths explicit: a handler may return
`Except.error`, and dispatch checks the registry.  On non-raising runs it
follows exactly the same branch structure as `execLoop`/`execRepaired`. -/

/-- The registry dispatch decision of `get_handler`
(handlers/registry.py:18-22): the three registered step types pass; any
other raises ValueError.  The handler instance itself is the oracle
argument of the exception-aware loop. -/
def get_handler_check (t : StepType) : Except PyErr Unit :=
  match t with
  | StepType.http_request => Except.ok ()
  | StepType.shell_command => Except.ok ()
  | StepType.regex_match => Except.ok ()
  | StepType.json_extract =>
      Except.error (PyErr.valueError "No handler registered for step type")
  | StepType.response_compare =>
      Except.error (PyErr.valueError "No handler registered for step type")

/-- Handler oracle that may raise (`Except.error` models an exception
escaping `handler.execute`). -/
abbrev HandlerEFn :=
  Nat → Step → ExecutionContext → Except PyErr (StepResult × ExecutionContext)

/-- Exception-aware `execRepaired`: the post-repair loop of
`Orchestrator._execute`, with `get_handler` dispatch and handler
exceptions propagating out. -/
def execRepairedE (h : HandlerEFn) (target_url : String) (n : Nat)
    (ctx : ExecutionContext) (findings : List Finding) (se : Nat) (rc : Nat) :
    List Step → Except PyErr ExecOut
  | [] =>
    Except.ok
      { success := true, findings := findings, steps_executed := se,
        error_log := Option.none, repaired := true, repairCount := rc,
        callCount := n }
  | step :: rest =>
    let interpolated := interpolate_params step ctx
    match get_handler_check interpolated.type with
    | Except.error e => Except.error e
    | Except.ok _ =>
      match h n interpolated ctx with
      | Except.error e => Except.error e
      | Except.ok (result, ctx1) =>
        let findings1 :=
          if findingGuard step result then
            findings ++ [mkFinding step result target_url]
          else findings
        if stepFailed step result then
          Except.ok
            { success := false, findings := findings1,
              steps_executed := se + 1,
              error_log := Option.some (pyOrStr result.stderr result.stdout),
              repaired := true, repairCount := rc, callCount := n + 1 }
        else
          execRepairedE h target_url (n + 1)
            { ctx1 with previous_outputs := ctx1.previous_outputs ++ [result.stdout] }
            findings1 (se + 1) rc rest

/-- Exception-aware `execLoop`: the pre-repair loop of
`Orchestrator._execute` with `_handle_step_failure` inlined, where
`get_handler` dispatch (lines 201 and 274) and both handler invocations
may raise, and a raised exception propagates out of the loop. -/
def execLoopE (h : HandlerEFn) (rp : RepairFn) (target_url : String)
    (fp : Fingerprint) (ag : ActionGraph) (n : Nat) (ctx : ExecutionContext)
    (findings : List Finding) (se : Nat) : List Step → Except PyErr ExecOut
  | [] =>
    Except.ok
      { success := true, findings := findings, steps_executed := se,
        error_log := Option.none, repaired := false, repairCount := 0,
        callCount := n }
  | step :: rest =>
    let interpolated := interpolate_params step ctx
    match get_handler_check interpolated.type with
    | Except.error e => Except.error e
    | Except.ok _ =>
      match h n interpolated ctx with
      | Except.error e => Except.error e
      | Except.ok (result, ctx1) =>
        let findings1 :=
          if findingGuard step result then
            findings ++ [mkFinding step result target_url]
          else findings
        if stepFailed step result then
          let error_log := pyOrStr result.stderr result.stdout
          let ftype := classify_failure error_log (pyOrInt result.status_code 0)
          if ftype = FailureType.transient_recoverable then
            match get_handler_check step.type with
            | Except.error e => Except.error e
            | Except.ok _ =>
              match h (n + 1) step ctx1 with
              | Except.error e => Except.error e
              | Except.ok (retry, ctx2) =>
                if retry.stderr == "" then
                  execLoopE h rp target_url fp ag (n + 2)
                    { ctx2 with previous_outputs := ctx2.previous_outputs ++ [retry.stdout] }
                    findings1 (se + 1) rest
                else
                  match rp ag step error_log ctx2.previous_outputs fp with
                  | Option.some newAg =>
                      execRepairedE h target_url (n + 2) (freshCtx target_url fp)
                        findings1 (se + 1) 1 (sortStepsByOrder newAg.steps)
                  | Option.none =>
                      Except.ok
                        { success := false, findings := findings1,
                          steps_executed := se + 1,
                          error_log := Option.some error_log, repaired := false,
                          repairCount := 0, callCount := n + 2 }
          else if ftype = FailureType.transient_unrecoverable then
            Except.ok
              { success := false, findings := findings1,
                steps_executed := se + 1, error_log := Option.some error_log,
                repaired := false, repairCount := 0, callCount := n + 1 }
          else
            match rp ag step error_log ctx1.previous_outputs fp with
            | Option.some newAg =>
                execRepairedE h target_url (n + 1) (freshCtx target_url fp)
                  findings1 (se + 1) 1 (sortStepsByOrder newAg.steps)
            | Option.none =>
                Except.ok
                  { success := false, findings := findings1,
                    steps_executed := se + 1, error_log := Option.some error_log,
                    repaired := false, repairCount := 0, callCount := n + 1 }
        else
          execLoopE h rp target_url fp ag (n + 1)
            { ctx1 with previous_outputs := ctx1.previous_outputs ++ [result.stdout] }
            findings1 (se + 1) rest

/-- Exception-aware `Orchestrator._execute`. -/
def executeGraphE (h : HandlerEFn) (rp : RepairFn) (target_url : String)
    (fp : Fingerprint) (ag : ActionGraph) : Except PyErr ExecOut :=
  execLoopE h rp target_url fp ag 0 (freshCtx target_url fp) [] 0
    (sortStepsByOrder ag.steps)

/-- The execute-then-record fragment of `Orchestrator.run` (lines 96-97)
over the exception-aware loop: when `_execute` raises, `run()` raises
with it and `increment_execution_count` at line 97 is never reached, so
the stored metrics stay as they were; otherwise the counters are updated
exactly once. -/
def runExecuteAndRecordE (h : HandlerEFn) (rp : RepairFn) (target_url : String)
    (fp : Fingerprint) (ag : ActionGraph) (m : GraphMetrics) :
    Except PyErr ExecOut × GraphMetrics :=
  match executeGraphE h rp target_url fp ag with
  | Except.error e => (Except.error e, m)
  | Except.ok r => (Except.ok r, increment_execution_count m r.success)

/-! ## Concrete orchestrator scenarios -/

/-- A minimal fingerprint for concrete runs. -/
def demoFp : Fingerprint :=
  { tech_stack := "Express", auth_model := "JWT Bearer", endpoint_pattern := "/api/*" }

/-- Single step whose handler always fails with an unclassified error
(drives the systemic-repair path). -/
def c1Step : Step :=
  { order := 1, phase := StepPhase.REPLAY, type := StepType.http_request,
    command := "GET /x" }

/-- Handler that always fails with an error text no classifier rule
matches. -/
def c1Handler : HandlerFn := fun _ _ ctx => ({ stderr := "boom" }, ctx)

/-- The graph the repair oracle returns. -/
def c1NewGraph : ActionGraph :=
  { vulnerability_type := "idor", description := "repaired", steps := [c1Step] }

/-- Repair oracle that always succeeds with `c1NewGraph`. -/
def c1Repair : RepairFn := fun _ _ _ _ _ => Option.some c1NewGraph

/-- The specification's retry scenario step: one step with a success
criterion. -/
def c4Step : Step :=
  { order := 1, phase := StepPhase.REPLAY, type := StepType.http_request,
    command := "login", success_criteria := Option.some "crit" }

/-- Injected handler of the retry scenario: status 503 with an error on
the first call, 200 with a criterion-matching body on every later call. -/
def c4Handler : HandlerFn := fun n _ ctx =>
  if n = 0 then
    ({ stdout := "Service Unavailable", stderr := "HTTP 503",
       status_code := Option.some 503, success_criteria_matched := false }, ctx)
  else
    ({ stdout := "crit ok", stderr := "", status_code := Option.some 200,
       success_criteria_matched := true }, ctx)

/-- The retry scenario's one-step graph. -/
def c4Graph : ActionGraph :=
  { vulnerability_type := "idor", description := "retry scenario",
    steps := [c4Step] }

/-- Repair oracle that never succeeds (models `_repair` raising). -/
def noRepair : RepairFn := fun _ _ _ _ _ => Option.none

/-! ## Concrete fingerprinter, handler and recon-tool scenarios -/

/-- A request carrying only a Cookie header. -/
def c6CookieReq : Request := { headers := [("Cookie", "sid=1")] }

/-- A request carrying a Bearer Authorization header. -/
def c6BearerReq : Request := { headers := [("Authorization", "Bearer tok")] }

/-- Request to `/zeta/x` (first in the transcript). -/
def c7ReqA : Request := { path := "/zeta/x" }

/-- Request to `/api/y` (second in the transcript, lexicographically
smaller pattern). -/
def c7ReqB : Request := { path := "/api/y" }

/-- Regex oracle that finds no match (never reached in the C8
counterexample). -/
def c8Search : SearchFn := fun _ _ => Except.ok Option.none

/-- A regex-match step whose `source` parameter is the string "1". -/
def c8Step : Step :=
  { order := 1, phase := StepPhase.ANALYZE, type := StepType.regex_match,
    command := "x", parameters := [("source", Value.str "1")] }

/-- A regex-match step whose `source` parameter is the integer 5. -/
def c8StepInt : Step :=
  { order := 1, phase := StepPhase.ANALYZE, type := StepType.regex_match,
    command := "x", parameters := [("source", Value.int 5)] }

/-- Context with a single previous output (so only indices 0 and -1 are
valid). -/
def c8Ctx : ExecutionContext :=
  { target_url := "u", fingerprint := demoFp, previous_outputs := ["only"] }

/-- The `StepResult` the regex handler returns when no previous outputs
exist (other fields left at their model defaults). -/
def noOutputsResult : StepResult := { stderr := "No previous outputs available" }

/-- The `StepResult` the regex handler returns when the regex finds no
match. -/
def unmatchedResult : StepResult :=
  { stdout := "", success_criteria_matched := false }

/-- A concrete captured flow. -/
def c9Req : FlowRequest :=
  { method := "GET", pretty_url := "http://t/api/a", headers := [],
    content := Option.none }

def c9Resp : FlowResponse :=
  { status_code := 200, headers := [("Server", "nginx")],
    content := Option.some "ok" }

def c9Flow : Flow :=
  { request := c9Req, response := Option.some c9Resp }

/-- Stored metrics before a run. -/
def c5Metrics : GraphMetrics := { times_executed := 7, times_succeeded := 3 }

/-- First step of the crashing-run scenario: a plain HTTP step that
succeeds. -/
def c5HttpStep : Step :=
  { order := 1, phase := StepPhase.CAPTURE, type := StepType.http_request,
    command := "GET /x" }

/-- Second step: a regex_match step whose `source` parameter is the
integer 5 (out of range once only one output exists). -/
def c5RegexStep : Step :=
  { order := 2, phase := StepPhase.ANALYZE, type := StepType.regex_match,
    command := "x", parameters := [("source", Value.int 5)] }

/-- Two-step graph whose second step makes the regex handler raise. -/
def c5RegexGraph : ActionGraph :=
  { vulnerability_type := "idor", description := "crashes on step 2",
    steps := [c5HttpStep, c5RegexStep] }

/-- Exception-aware handler: regex_match steps run the embedded regex
handler (which may raise); other registered types return a plain body. -/
def c5RegexHandlerE : HandlerEFn := fun _ step ctx =>
  match step.type with
  | StepType.regex_match =>
    match regexMatchExecute c8Search step ctx with
    | Except.error e => Except.error e
    | Except.ok r => Except.ok (r, ctx)
  | _ => Except.ok ({ stdout := "body" }, ctx)

/-- A step whose type has no registered handler, so `get_handler`
raises ValueError. -/
def c5JsonStep : Step :=
  { order := 1, phase := StepPhase.ANALYZE, type := StepType.json_extract,
    command := "extract" }

/-- One-step graph built from `c5JsonStep`. -/
def c5CrashGraph : ActionGraph :=
  { vulnerability_type := "idor", description := "unregistered step type",
    steps := [c5JsonStep] }

/-- A plain HTTP step for the clean run. -/
def c5OkStep : Step :=
  { order := 1, phase := StepPhase.REPLAY, type := StepType.http_request,
    command := "GET /" }

/-- One-step graph that completes without exception and succeeds. -/
def c5OkGraph : ActionGraph :=
  { vulnerability_type := "idor", description := "clean run",
    steps := [c5OkStep] }

/-- The execution result of the clean run of `c5OkGraph` under
`c5RegexHandlerE`. -/
def c5OkOut : ExecOut :=
  { success := true, findings := [], steps_executed := 1,
    error_log := Option.none, repaired := false, repairCount := 0,
    callCount := 1 }

/-! ### Scanner lemmas -/

theorem stripChars_eq_some (p : List Char) :
    ∀ cs r, stripChars p cs = Option.some r → cs = p ++ r := by
  induction p with
  | nil =>
    intro cs r h
    simp only [stripChars, Option.some.injEq] at h
    simp [h]
  | cons p ps ih =>
    intro cs r h
    cases cs with
    | nil => simp [stripChars] at h
    | cons c cs =>
      simp only [stripChars] at h
      by_cases hpc : p = c
      · subst hpc
        simp only [if_pos rfl] at h
        simpa using ih cs r h
      · simp [if_neg hpc] at h

theorem stripChars_append (p r : List Char) :
    stripChars p (p ++ r) = Option.some r := by
  induction p with
  | nil => simp [stripChars]
  | cons c cs ih => simp [stripChars, ih]

theorem stripChars_none_of_not_isPrefixOf (p cs : List Char)
    (h : List.isPrefixOf p cs = false) : stripChars p cs = Option.none := by
  cases hs : stripChars p cs with
  | none => rfl
  | some r =>
    have hcs := stripChars_eq_some p cs r hs
    subst hcs
    have htrue : List.isPrefixOf p (p ++ r) = true := by
      rw [List.isPrefixOf_iff_prefix]
      exact List.prefix_append p r
    rw [htrue] at h
    cases h

theorem takeDigits_split : ∀ cs : List Char,
    (takeDigits cs).1 ++ (takeDigits cs).2 = cs := by
  intro cs
  induction cs with
  | nil => simp [takeDigits]
  | cons c cs ih =>
    by_cases hc : c.isDigit
    · simp only [takeDigits, if_pos hc]
      cases h : takeDigits cs with
      | mk ds r =>
        simp only [List.cons_append, List.cons.injEq, true_and]
        simpa [h] using ih
    · simp [takeDigits, if_neg hc]

theorem takeDigits_append (ds : List Char) (hds : ∀ c ∈ ds, c.isDigit = true)
    (r : List Char) (hr : ∀ c, r.head? = Option.some c → c.isDigit = false) :
    takeDigits (ds ++ r) = (ds, r) := by
  induction ds with
  | nil =>
    cases r with
    | nil => simp [takeDigits]
    | cons c t =>
      have := hr c (by simp)
      simp [takeDigits, this]
  | cons d ds ih =>
    have hd : d.isDigit = true := hds d (by simp)
    have ih' := ih (fun c hc => hds c (by simp [hc]))
    simp [takeDigits, hd, ih']

theorem parseSign_true (r1 : List Char) (h : (parseSign r1).1 = true) :
    r1 = '-' :: (parseSign r1).2 := by
  by_cases hh : r1.head? = Option.some '-'
  · cases r1 with
    | nil => cases hh
    | cons a t =>
      simp only [List.head?_cons, Option.some.injEq] at hh
      simp [parseSign, hh]
  · simp [parseSign, hh] at h

theorem parseSign_false (r1 : List Char) (h : (parseSign r1).1 = false) :
    (parseSign r1).2 = r1 := by
  by_cases hh : r1.head? = Option.some '-'
  · simp [parseSign, hh] at h
  · simp [parseSign, hh]

theorem matchTokenAt_split (cs : List Char) (idx : Int) (m after : List Char)
    (h : matchTokenAt cs = Option.some (idx, m, after)) :
    cs = m ++ after ∧ 0 < m.length := by
  unfold matchTokenAt at h
  rw [Option.bind_eq_some] at h
  obtain ⟨r1, h1, h2⟩ := h
  simp only at h2
  by_cases hne : ((takeDigits (parseSign r1).2).1).isEmpty
  · rw [if_pos hne] at h2; cases h2
  · rw [if_neg hne] at h2
    rw [Option.bind_eq_some] at h2
    obtain ⟨r4, h3, h4⟩ := h2
    have hcs := stripChars_eq_some _ _ _ h1
    have hr3 := stripChars_eq_some _ _ _ h3
    have hr2 := takeDigits_split (parseSign r1).2
    cases hsgn : (parseSign r1).1 with
    | false =>
      have hps := parseSign_false r1 hsgn
      rw [hsgn] at h4
      simp only [Bool.false_eq_true, if_false, Option.some.injEq, Prod.mk.injEq,
        List.append_nil] at h4
      obtain ⟨hidx, hm, hafter⟩ := h4
      constructor
      · rw [hcs, ← hm, ← hafter, hps]
        rw [hps] at hr2 hr3
        conv_lhs => rw [← hr2]
        rw [hr3]
        simp [List.append_assoc]
      · rw [← hm]; simp [tokHead]
    | true =>
      have hr1 := parseSign_true r1 hsgn
      rw [hsgn] at h4
      simp only [if_true, Option.some.injEq, Prod.mk.injEq] at h4
      obtain ⟨hidx, hm, hafter⟩ := h4
      constructor
      · rw [hcs, ← hm, ← hafter]
        conv_lhs => rw [hr1]
        conv_lhs => rw [← hr2]
        rw [hr3]
        simp [List.append_assoc]
      · rw [← hm]; simp [tokHead]

theorem matchTokenAt_none_of_no_head (cs : List Char)
    (h : List.isPrefixOf tokHead cs = false) : matchTokenAt cs = Option.none := by
  unfold matchTokenAt
  rw [stripChars_none_of_not_isPrefixOf _ _ h]
  rfl

theorem matchTokenAt_renderTok (sgn : Bool) (ds cont : List Char)
    (hne : ds ≠ []) (hdig : ∀ c ∈ ds, c.isDigit = true) :
    matchTokenAt (renderSeg (Seg.tok sgn ds) ++ cont)
      = Option.some (segIndex sgn ds, renderSeg (Seg.tok sgn ds), cont) := by
  have hstrip1 : stripChars tokHead (renderSeg (Seg.tok sgn ds) ++ cont)
      = Option.some ((if sgn then ['-'] else []) ++ (ds ++ (tokClose ++ cont))) := by
    simp [renderSeg, List.append_assoc, stripChars_append]
  have hcloseHead : ∀ c : Char, (tokClose ++ cont).head? = Option.some c →
      c.isDigit = false := by
    intro c hc
    have : tokClose = ']' :: '\x7d' :: '\x7d' :: [] := by decide
    rw [this] at hc
    simp only [List.cons_append, List.head?_cons, Option.some.injEq] at hc
    rw [← hc]
    decide
  have htake : takeDigits (ds ++ (tokClose ++ cont)) = (ds, tokClose ++ cont) :=
    takeDigits_append ds hdig (tokClose ++ cont) hcloseHead
  have hdsne : ds.isEmpty = false := by
    cases ds with
    | nil => exact absurd rfl hne
    | cons d t => rfl
  unfold matchTokenAt
  rw [hstrip1]
  simp only [Option.some_bind]
  cases sgn with
  | true =>
    have hps : parseSign (['-'] ++ (ds ++ (tokClose ++ cont)))
        = (true, ds ++ (tokClose ++ cont)) := by
      simp [parseSign]
    simp only [if_true, hps, htake, hdsne, Bool.false_eq_true, if_false,
      stripChars_append, Option.some_bind, segIndex, renderSeg]
  | false =>
    have hps : parseSign ([] ++ (ds ++ (tokClose ++ cont)))
        = (false, ds ++ (tokClose ++ cont)) := by
      cases ds with
      | nil => exact absurd rfl hne
      | cons d t =>
        have hd : d.isDigit = true := hdig d (by simp)
        have hd' : d ≠ '-' := by
          intro heq
          rw [heq] at hd
          cases hd
        simp [parseSign, hd']
    simp only [Bool.false_eq_true, if_false, List.nil_append] at hps ⊢
    simp only [hps, htake, hdsne, Bool.false_eq_true, if_false,
      stripChars_append, Option.some_bind, segIndex, renderSeg]

theorem subGo_congr (outs : List String) :
    ∀ f1 f2 cs, cs.length ≤ f1 → cs.length ≤ f2 →
      subGo outs f1 cs = subGo outs f2 cs := by
  intro f1
  induction f1 with
  | zero =>
    intro f2 cs h1 _
    have hcs : cs = [] := by
      cases cs with
      | nil => rfl
      | cons c t => simp at h1
    subst hcs
    cases f2 <;> rfl
  | succ a ih =>
    intro f2 cs h1 h2
    cases cs with
    | nil => cases f2 <;> rfl
    | cons c rest =>
      cases f2 with
      | zero => simp at h2
      | succ b =>
        simp only [subGo]
        cases hm : matchTokenAt (c :: rest) with
        | some trip =>
          obtain ⟨idx, m, after⟩ := trip
          have hsplit := matchTokenAt_split _ idx m after hm
          have hlentot : rest.length + 1 = m.length + after.length := by
            have := congrArg List.length hsplit.1
            simpa [List.length_append] using this
          have hla : after.length ≤ a := by
            have hm0 := hsplit.2
            simp only [List.length_cons] at h1
            omega
          have hlb : after.length ≤ b := by
            have hm0 := hsplit.2
            simp only [List.length_cons] at h2
            omega
          dsimp only
          rw [ih b after hla hlb]
        | none =>
          have hra : rest.length ≤ a := by
            simp only [List.length_cons] at h1
            omega
          have hrb : rest.length ≤ b := by
            simp only [List.length_cons] at h2
            omega
          dsimp only
          rw [ih b rest hra hrb]

theorem subChars_match (outs : List String) (cs : List Char) (idx : Int)
    (m after : List Char) (hm : matchTokenAt cs = Option.some (idx, m, after)) :
    subChars outs cs = replaceTok outs idx m ++ subChars outs after := by
  have hsplit := matchTokenAt_split cs idx m after hm
  cases cs with
  | nil =>
    exfalso
    have h1 := hsplit.1
    have h2 := hsplit.2
    have := congrArg List.length h1
    simp [List.length_append] at this
    omega
  | cons c rest =>
    unfold subChars
    simp only [List.length_cons, subGo, hm]
    congr 1
    have hlentot : rest.length + 1 = m.length + after.length := by
      have := congrArg List.length hsplit.1
      simpa [List.length_append] using this
    exact subGo_congr outs rest.length after.length after
      (by have := hsplit.2; omega) (le_refl _)

theorem subChars_cons_nomatch (outs : List String) (c : Char) (rest : List Char)
    (hm : matchTokenAt (c :: rest) = Option.none) :
    subChars outs (c :: rest) = c :: subChars outs rest := by
  unfold subChars
  simp only [List.length_cons, subGo, hm]

theorem subChars_id_of_no_head (outs : List String) :
    ∀ cs, hasSubChars tokHead cs = false → subChars outs cs = cs := by
  intro cs
  induction cs with
  | nil => intro _; rfl
  | cons c rest ih =>
    intro h
    rw [hasSubChars] at h
    rw [Bool.or_eq_false_iff] at h
    rw [subChars_cons_nomatch outs c rest (matchTokenAt_none_of_no_head _ h.1)]
    rw [ih h.2]

theorem litOkB_head (cs cont : List Char) (h : litOkB cs cont = true)
    (hne : cs ≠ []) : List.isPrefixOf tokHead (cs ++ cont) = false := by
  unfold litOkB at h
  rw [List.all_eq_true] at h
  have hlen : 0 < cs.length := by
    cases cs with
    | nil => exact absurd rfl hne
    | cons c t => simp
  have h0 := h 0 (by rw [List.mem_range]; exact hlen)
  simpa using h0

theorem litOkB_tail (c : Char) (cs cont : List Char)
    (h : litOkB (c :: cs) cont = true) : litOkB cs cont = true := by
  unfold litOkB at h ⊢
  rw [List.all_eq_true] at h ⊢
  intro j hj
  rw [List.mem_range] at hj
  have := h (j + 1) (by rw [List.mem_range]; simp; omega)
  simpa using this

theorem subChars_lit_chunk (outs : List String) :
    ∀ cs cont, litOkB cs cont = true →
      subChars outs (cs ++ cont) = cs ++ subChars outs cont := by
  intro cs
  induction cs with
  | nil => intro cont _; rfl
  | cons c rest ih =>
    intro cont h
    have hhead := litOkB_head (c :: rest) cont h (by simp)
    rw [List.cons_append]
    rw [subChars_cons_nomatch outs _ _
      (matchTokenAt_none_of_no_head _ (by simpa using hhead))]
    rw [ih cont (litOkB_tail c rest cont h)]
    rfl

theorem subChars_renderSegs (outs : List String) :
    ∀ segs, segsWF segs = true →
      subChars outs (renderSegs segs) = (segs.map (resolveSeg outs)).flatten := by
  intro segs
  induction segs with
  | nil => intro _; rfl
  | cons sg rest ih =>
    intro hwf
    cases sg with
    | tok sgn ds =>
      have hw : (ds.isEmpty = false ∧ ∀ c ∈ ds, c.isDigit = true) ∧
          segsWF rest = true := by
        simpa [segsWF, Bool.and_eq_true, List.all_eq_true] using hwf
      have hne : ds ≠ [] := by
        intro heq
        rw [heq] at hw
        simp at hw
      have hrender : renderSegs (Seg.tok sgn ds :: rest)
          = renderSeg (Seg.tok sgn ds) ++ renderSegs rest := by
        simp [renderSegs]
      rw [hrender,
        subChars_match outs _ _ _ _ (matchTokenAt_renderTok sgn ds _ hne hw.1.2),
        ih hw.2]
      simp [resolveSeg]
    | lit cs =>
      have hw : litOkB cs (renderSegs rest) = true ∧ segsWF rest = true := by
        simpa [segsWF, Bool.and_eq_true] using hwf
      have hrender : renderSegs (Seg.lit cs :: rest) = cs ++ renderSegs rest := by
        simp [renderSegs, renderSeg]
      rw [hrender, subChars_lit_chunk outs cs _ hw.1, ih hw.2]
      simp [resolveSeg]

theorem interpolatePairs_eq_map (outs : List String) :
    ∀ kvs, interpolatePairs outs kvs
      = kvs.map (fun kv => (kv.1, interpolateValue outs kv.2)) := by
  intro kvs
  induction kvs with
  | nil => simp [interpolatePairs]
  | cons kv rest ih =>
    cases kv with
    | mk k v => simp [interpolatePairs, ih]

theorem interpolateList_eq_map (outs : List String) :
    ∀ vs, interpolateList outs vs = vs.map (interpolateValue outs) := by
  intro vs
  induction vs with
  | nil => simp [interpolateList]
  | cons v rest ih => simp [interpolateList, ih]

theorem interpolateValue_str (outs : List String) (s : String) :
    interpolateValue outs (Value.str s)
      = Value.str (String.mk (subChars outs s.data)) := by
  rw [interpolateValue]
  by_cases hg : hasSubstr (String.mk tokHead) s = true
  · rw [if_pos hg]
  · have hg' : hasSubChars tokHead s.data = false := by
      unfold hasSubstr at hg
      cases hb : hasSubChars tokHead s.data with
      | false => rfl
      | true => exact absurd hb hg
    rw [if_neg hg, subChars_id_of_no_head outs s.data hg']

theorem pyIndex?_concat_neg_one (xs : List String) (x : String) :
    pyIndex? (xs ++ [x]) (-1) = Option.some x := by
  unfold pyIndex?
  have h0 : ¬ (0 : Int) ≤ -1 := by decide
  rw [if_neg h0]
  have hna : ((-1 : Int)).natAbs = 1 := by decide
  rw [hna]
  have hlen : (xs ++ [x]).length = xs.length + 1 := by simp
  rw [if_pos (by rw [hlen]; omega)]
  rw [hlen]
  simp only [Nat.add_sub_cancel]
  exact List.get?_concat_length xs x

theorem pyIndex?_eq_none_iff {α : Type} (xs : List α) (i : Int) :
    pyIndex? xs i = Option.none ↔
      (i < -(xs.length : Int) ∨ (xs.length : Int) ≤ i) := by
  unfold pyIndex?
  by_cases h0 : (0 : Int) ≤ i
  · rw [if_pos h0, List.get?_eq_none]
    constructor
    · intro hle; right; omega
    · intro h
      cases h with
      | inl h => exfalso; omega
      | inr h => omega
  · rw [if_neg h0]
    by_cases h1 : i.natAbs ≤ xs.length
    · rw [if_pos h1]
      constructor
      · intro hc
        rw [List.get?_eq_none] at hc
        exfalso
        omega
      · intro h
        exfalso
        cases h with
        | inl h => omega
        | inr h => omega
    · rw [if_neg h1]
      constructor
      · intro _
        left
        omega
      · intro _
        rfl

/-- C3: For every previous-outputs list, interpolation replaces each
occurrence of the previous-outputs token in string leaves by the indexed
output under Python indexing (negative indices count from the end, so
index -1 is the most recently appended output), leaves out-of-range
occurrences literally in place, recurses through nested maps and lists,
and passes non-string leaves through unchanged.  Occurrences are described
by well-formed segmentations of the string. -/
theorem interpolation_substitutes_each_occurrence (outs : List String) :
    (∀ segs, segsWF segs = true →
      subChars outs (renderSegs segs) = (segs.map (resolveSeg outs)).flatten) ∧
    (∀ s, interpolateValue outs (Value.str s)
      = Value.str (String.mk (subChars outs s.data))) ∧
    (∀ kvs, interpolateValue outs (Value.dict kvs)
      = Value.dict (kvs.map (fun kv => (kv.1, interpolateValue outs kv.2)))) ∧
    (∀ vs, interpolateValue outs (Value.list vs)
      = Value.list (vs.map (interpolateValue outs))) ∧
    (∀ n, interpolateValue outs (Value.int n) = Value.int n) ∧
    (∀ b, interpolateValue outs (Value.bool b) = Value.bool b) ∧
    (interpolateValue outs Value.none = Value.none) ∧
    (∀ (xs : List String) (x : String), pyIndex? (xs ++ [x]) (-1) = Option.some x) ∧
    (∀ i : Int, pyIndex? outs i = Option.none ↔
      (i < -(outs.length : Int) ∨ (outs.length : Int) ≤ i)) := by
  refine ⟨subChars_renderSegs outs, interpolateValue_str outs, ?_, ?_, ?_, ?_, ?_,
    pyIndex?_concat_neg_one, pyIndex?_eq_none_iff outs⟩
  · intro kvs
    rw [interpolateValue, interpolatePairs_eq_map]
  · intro vs
    rw [interpolateValue, interpolateList_eq_map]
  · intro n; rfl
  · intro b; rfl
  · rfl

/-- Witness for C3 at a concrete segmentation: the in-range negative token
resolves to the last output and the out-of-range token stays literal. -/
theorem interpolation_substitutes_each_occurrence_witness :
    segsWF demoSegs = true ∧
    subChars demoOuts (renderSegs demoSegs)
      = (demoSegs.map (resolveSeg demoOuts)).flatten ∧
    String.mk (subChars demoOuts (renderSegs demoSegs))
      = "a=second&b=\x7b\x7bprevious_outputs[99]\x7d\x7d" :=
  ⟨by decide,
   (interpolation_substitutes_each_occurrence demoOuts).1 demoSegs (by decide),
   by decide⟩

/-- C2: `classify_failure` is total (it is a Lean function), returns exactly
one of the three tiers for every input, and its top-to-bottom rule order
agrees with the specification's five rules. -/
theorem classify_failure_matches_spec_rules (text : String) (code : Int) :
    classify_failure text code = classifySpecTiers text code ∧
    (classify_failure text code = FailureType.transient_recoverable ∨
     classify_failure text code = FailureType.transient_unrecoverable ∨
     classify_failure text code = FailureType.systemic) := by
  constructor
  · unfold classify_failure classifySpecTiers
    simp only [List.contains_cons, List.contains_nil, List.any_cons, List.any_nil,
      Bool.or_false, Bool.or_eq_true, beq_iff_eq, decide_eq_true_eq]
  · cases h : classify_failure text code <;> simp

/-! ## Orchestrator loop lemmas -/

theorem execRepaired_repairCount (h : HandlerFn) (target_url : String) :
    ∀ (steps : List Step) (n : Nat) (ctx : ExecutionContext)
      (findings : List Finding) (se rc : Nat),
      (execRepaired h target_url n ctx findings se rc steps).repairCount = rc := by
  intro steps
  induction steps with
  | nil => intro n ctx fs se rc; rfl
  | cons step rest ih =>
    intro n ctx fs se rc
    simp only [execRepaired]
    split
    · rfl
    · exact ih _ _ _ _ _

theorem execLoop_repairCount_le_one (h : HandlerFn) (rp : RepairFn)
    (target_url : String) (fp : Fingerprint) (ag : ActionGraph) :
    ∀ (steps : List Step) (n : Nat) (ctx : ExecutionContext)
      (findings : List Finding) (se : Nat),
      (execLoop h rp target_url fp ag n ctx findings se steps).repairCount ≤ 1 := by
  intro steps
  induction steps with
  | nil => intro n ctx fs se; simp [execLoop]
  | cons step rest ih =>
    intro n ctx fs se
    simp only [execLoop]
    split
    · split
      · split
        · exact ih _ _ _ _
        · split
          · rw [execRepaired_repairCount]
          · simp
      · split
        · simp
        · split
          · rw [execRepaired_repairCount]
          · simp
    · exact ih _ _ _ _

/-- C1: At most one repair is performed per run: the pre-repair loop
performs at most one successful repair, the post-repair loop never adds
one and terminates as failed on any step failure, and the repair
transition installs a fresh `ExecutionContext` (empty session tokens,
previous outputs and cookies) and restarts iteration at the head of the
new graph's order-sorted step list. -/
theorem single_repair_with_fresh_restart :
    (∀ (h : HandlerFn) (rp : RepairFn) (tu : String) (fp : Fingerprint)
        (ag : ActionGraph) (n : Nat) (ctx : ExecutionContext)
        (fs : List Finding) (se : Nat) (steps : List Step),
      (execLoop h rp tu fp ag n ctx fs se steps).repairCount ≤ 1) ∧
    (∀ (h : HandlerFn) (tu : String) (n : Nat) (ctx : ExecutionContext)
        (fs : List Finding) (se rc : Nat) (steps : List Step),
      (execRepaired h tu n ctx fs se rc steps).repairCount = rc) ∧
    (∀ (h : HandlerFn) (tu : String) (n : Nat) (ctx : ExecutionContext)
        (fs : List Finding) (se rc : Nat) (step : Step) (rest : List Step),
      stepFailed step ((h n (interpolate_params step ctx) ctx).1) = true →
      (execRepaired h tu n ctx fs se rc (step :: rest)).success = false ∧
      (execRepaired h tu n ctx fs se rc (step :: rest)).repaired = true ∧
      (execRepaired h tu n ctx fs se rc (step :: rest)).repairCount = rc ∧
      (execRepaired h tu n ctx fs se rc (step :: rest)).steps_executed = se + 1) ∧
    (∀ (h : HandlerFn) (rp : RepairFn) (tu : String) (fp : Fingerprint)
        (ag : ActionGraph) (n : Nat) (ctx : ExecutionContext)
        (fs : List Finding) (se : Nat) (step : Step) (rest : List Step)
        (r : StepResult) (ctx1 : ExecutionContext) (newAg : ActionGraph),
      h n (interpolate_params step ctx) ctx = (r, ctx1) →
      stepFailed step r = true →
      classify_failure (pyOrStr r.stderr r.stdout) (pyOrInt r.status_code 0)
        = FailureType.systemic →
      rp ag step (pyOrStr r.stderr r.stdout) ctx1.previous_outputs fp
        = Option.some newAg →
      execLoop h rp tu fp ag n ctx fs se (step :: rest)
        = execRepaired h tu (n + 1) (freshCtx tu fp)
            (if findingGuard step r then fs ++ [mkFinding step r tu] else fs)
            (se + 1) 1 (sortStepsByOrder newAg.steps)) ∧
    (∀ (tu : String) (fp : Fingerprint),
      (freshCtx tu fp).session_tokens = [] ∧
      (freshCtx tu fp).previous_outputs = [] ∧
      (freshCtx tu fp).cookies = []) := by
  refine ⟨?_, ?_, ?_, ?_, ?_⟩
  · intro h rp tu fp ag n ctx fs se steps
    exact execLoop_repairCount_le_one h rp tu fp ag steps n ctx fs se
  · intro h tu n ctx fs se rc steps
    exact execRepaired_repairCount h tu steps n ctx fs se rc
  · intro h tu n ctx fs se rc step rest hf
    refine ⟨?_, ?_, ?_, ?_⟩ <;> simp [execRepaired, hf]
  · intro h rp tu fp ag n ctx fs se step rest r ctx1 newAg hh hf hcl hrp
    simp only [execLoop, hh, hf, if_true]
    have hne1 : FailureType.systemic ≠ FailureType.transient_recoverable := by decide
    have hne2 : FailureType.systemic ≠ FailureType.transient_unrecoverable := by decide
    rw [if_neg (by rw [hcl]; exact hne1), if_neg (by rw [hcl]; exact hne2), hrp]
  · intro tu fp
    exact ⟨rfl, rfl, rfl⟩

/-- Witness for C1: a concrete first-step systemic failure with a
successful repair oracle takes the loop to the post-repair phase on the
new graph with a fresh context. -/
theorem single_repair_with_fresh_restart_witness :
    execLoop c1Handler c1Repair "u" demoFp c1NewGraph 0 (freshCtx "u" demoFp)
        [] 0 [c1Step]
      = execRepaired c1Handler "u" 1 (freshCtx "u" demoFp) [] 1 1
          (sortStepsByOrder c1NewGraph.steps) :=
  single_repair_with_fresh_restart.2.2.2.1 c1Handler c1Repair "u" demoFp
    c1NewGraph 0 (freshCtx "u" demoFp) [] 0 c1Step [] _ _ c1NewGraph rfl
    (by decide) (by decide) rfl

/-- Counterexample for C4: in the injected-handler scenario (503 then 200
with matching body) on a one-step graph the run succeeds, but the code
reports `steps_executed = 1`, the initial step count, not initial + 1 as
the claim states: the retry invocation inside failure handling does not
increment the step counter. -/
theorem retry_counts_initial_not_plus_one_counterexample :
    (executeGraph c4Handler noRepair "u" demoFp c4Graph).success = true ∧
    c4Graph.steps.length = 1 ∧
    (executeGraph c4Handler noRepair "u" demoFp c4Graph).steps_executed = 1 ∧
    ¬ (executeGraph c4Handler noRepair "u" demoFp c4Graph).steps_executed
        = c4Graph.steps.length + 1 := by
  refine ⟨by decide, by decide, by decide, by decide⟩

/-- C4 (amended): a transient-recoverable failure on a not-yet-retried
step re-invokes the handler exactly once on the original step; if the
retry's stderr is empty, its stdout is appended and the loop continues
with the next step.  `steps_executed` rises by one for the step (the
retry invocation is not counted), while the handler call count rises by
two. -/
theorem retry_once_continues_run
    (h : HandlerFn) (rp : RepairFn) (tu : String) (fp : Fingerprint)
    (ag : ActionGraph) (n : Nat) (ctx : ExecutionContext) (fs : List Finding)
    (se : Nat) (step : Step) (rest : List Step) (r : StepResult)
    (ctx1 : ExecutionContext) (r2 : StepResult) (ctx2 : ExecutionContext)
    (hh : h n (interpolate_params step ctx) ctx = (r, ctx1))
    (hf : stepFailed step r = true)
    (hcl : classify_failure (pyOrStr r.stderr r.stdout) (pyOrInt r.status_code 0)
        = FailureType.transient_recoverable)
    (hh2 : h (n + 1) step ctx1 = (r2, ctx2))
    (hok : r2.stderr = "") :
    execLoop h rp tu fp ag n ctx fs se (step :: rest)
      = execLoop h rp tu fp ag (n + 2)
          { ctx2 with previous_outputs := ctx2.previous_outputs ++ [r2.stdout] }
          (if findingGuard step r then fs ++ [mkFinding step r tu] else fs)
          (se + 1) rest := by
  simp only [execLoop, hh, hf, if_true]
  rw [if_pos hcl, hh2]
  simp [hok]

/-- Witness for the amended C4 at the injected scenario: the first call
fails with 503, the retry succeeds, the loop continues past the step, and
over the whole run the handler is invoked `initial + 1` times while
`steps_executed` stays at the initial step count. -/
theorem retry_once_continues_run_witness :
    execLoop c4Handler noRepair "u" demoFp c4Graph 0 (freshCtx "u" demoFp)
        [] 0 [c4Step]
      = execLoop c4Handler noRepair "u" demoFp c4Graph 2
          { freshCtx "u" demoFp with previous_outputs := ["crit ok"] }
          [] 1 [] ∧
    (executeGraph c4Handler noRepair "u" demoFp c4Graph).callCount
      = c4Graph.steps.length + 1 ∧
    (executeGraph c4Handler noRepair "u" demoFp c4Graph).success = true :=
  ⟨retry_once_continues_run c4Handler noRepair "u" demoFp c4Graph 0
      (freshCtx "u" demoFp) [] 0 c4Step [] _ _ _ _ rfl (by decide) (by decide)
      rfl rfl,
   by decide, by decide⟩

/-- Counterexample for C5: runs that reach execution but whose exception
escapes `_execute` never reach `increment_execution_count`.  Concretely:
(1) a two-step run whose second step is the embedded regex handler with
an out-of-range integer source raises IndexError mid-execution and
leaves both counters unchanged (`times_executed` does not rise by 1);
(2) a run whose step type is unregistered (`json_extract`) raises
ValueError from `get_handler` with the same effect. -/
theorem metrics_unchanged_when_exception_escapes :
    (runExecuteAndRecordE c5RegexHandlerE noRepair "u" demoFp c5RegexGraph
        c5Metrics).1
      = Except.error (PyErr.indexError "list index out of range") ∧
    (runExecuteAndRecordE c5RegexHandlerE noRepair "u" demoFp c5RegexGraph
        c5Metrics).2 = c5Metrics ∧
    ¬ (runExecuteAndRecordE c5RegexHandlerE noRepair "u" demoFp c5RegexGraph
        c5Metrics).2.times_executed = c5Metrics.times_executed + 1 ∧
    (runExecuteAndRecordE c5RegexHandlerE noRepair "u" demoFp c5CrashGraph
        c5Metrics).1
      = Except.error (PyErr.valueError "No handler registered for step type") ∧
    (runExecuteAndRecordE c5RegexHandlerE noRepair "u" demoFp c5CrashGraph
        c5Metrics).2 = c5Metrics := by
  refine ⟨rfl, rfl, by decide, rfl, rfl⟩

/-- C5 (amended): when execution completes without an exception escaping
`_execute`, `times_executed` rises by exactly one at run termination
regardless of success or failure, and `times_succeeded` rises by one
exactly when the execution succeeded and stays unchanged exactly when it
failed; when an exception escapes execution, it propagates out of
`run()` before `increment_execution_count` and neither counter changes. -/
theorem metrics_incremented_once_unless_exception
    (h : HandlerEFn) (rp : RepairFn) (target_url : String) (fp : Fingerprint)
    (ag : ActionGraph) (m : GraphMetrics) :
    (∀ r : ExecOut, executeGraphE h rp target_url fp ag = Except.ok r →
      (runExecuteAndRecordE h rp target_url fp ag m).1 = Except.ok r ∧
      (runExecuteAndRecordE h rp target_url fp ag m).2.times_executed
        = m.times_executed + 1 ∧
      ((runExecuteAndRecordE h rp target_url fp ag m).2.times_succeeded
          = m.times_succeeded + 1 ↔ r.success = true) ∧
      ((runExecuteAndRecordE h rp target_url fp ag m).2.times_succeeded
          = m.times_succeeded ↔ r.success = false)) ∧
    (∀ e : PyErr, executeGraphE h rp target_url fp ag = Except.error e →
      (runExecuteAndRecordE h rp target_url fp ag m).1 = Except.error e ∧
      (runExecuteAndRecordE h rp target_url fp ag m).2 = m) := by
  constructor
  · intro r hok
    unfold runExecuteAndRecordE
    rw [hok]
    dsimp only
    unfold increment_execution_count
    cases hsucc : r.success with
    | true =>
      refine ⟨rfl, by simp [hsucc], by simp [hsucc], ?_⟩
      simp only [hsucc, if_true]
      constructor
      · intro hc; exfalso; omega
      · intro hc; cases hc
    | false =>
      refine ⟨rfl, by simp [hsucc], ?_, by simp [hsucc]⟩
      simp only [hsucc, Bool.false_eq_true, if_false]
      constructor
      · intro hc; exfalso; omega
      · intro hc; cases hc
  · intro e herr
    unfold runExecuteAndRecordE
    rw [herr]
    exact ⟨rfl, rfl⟩

/-- Witness for the amended C5: on a clean one-step run, the recorded
metrics rise from (7, 3) to (8, 4). -/
theorem metrics_incremented_once_unless_exception_witness :
    (runExecuteAndRecordE c5RegexHandlerE noRepair "u" demoFp c5OkGraph
        c5Metrics).1 = Except.ok c5OkOut ∧
    (runExecuteAndRecordE c5RegexHandlerE noRepair "u" demoFp c5OkGraph
        c5Metrics).2.times_executed = c5Metrics.times_executed + 1 ∧
    ((runExecuteAndRecordE c5RegexHandlerE noRepair "u" demoFp c5OkGraph
        c5Metrics).2.times_succeeded = c5Metrics.times_succeeded + 1 ↔
      c5OkOut.success = true) ∧
    ((runExecuteAndRecordE c5RegexHandlerE noRepair "u" demoFp c5OkGraph
        c5Metrics).2.times_succeeded = c5Metrics.times_succeeded ↔
      c5OkOut.success = false) :=
  (metrics_incremented_once_unless_exception c5RegexHandlerE noRepair "u"
    demoFp c5OkGraph c5Metrics).1 c5OkOut rfl

/-- C10: Parameter interpolation is pure and frame-preserving: it returns
a copy of the step whose non-parameter fields are unchanged, whose
parameter keys are preserved in order with only the values interpolated,
and it reads but never alters the execution context (the embedding of
`_interpolate_params` consumes the context and returns only a step, there
being no write to the context anywhere in the source function). -/
theorem interpolate_params_pure_frame (step : Step) (ctx : ExecutionContext) :
    (interpolate_params step ctx).order = step.order ∧
    (interpolate_params step ctx).phase = step.phase ∧
    (interpolate_params step ctx).type = step.type ∧
    (interpolate_params step ctx).command = step.command ∧
    (interpolate_params step ctx).output_file = step.output_file ∧
    (interpolate_params step ctx).success_criteria = step.success_criteria ∧
    (interpolate_params step ctx).deterministic = step.deterministic ∧
    (interpolate_params step ctx).parameters
      = step.parameters.map
          (fun kv => (kv.1, interpolateValue ctx.previous_outputs kv.2)) ∧
    (interpolate_params step ctx).parameters.map Prod.fst
      = step.parameters.map Prod.fst := by
  refine ⟨rfl, rfl, rfl, rfl, rfl, rfl, rfl, rfl, ?_⟩
  unfold interpolate_params
  simp

/-! ## Fingerprinter theorems -/

/-- Counterexample for C6: a transcript whose first request carries only
a Cookie header and whose second request carries a Bearer token yields
`"Cookie-based"`, not `"JWT Bearer"` — the Bearer token elsewhere in the
transcript does not take priority over an earlier Cookie header. -/
theorem auth_model_earlier_cookie_beats_later_bearer :
    extract_auth_model [c6CookieReq, c6BearerReq] = Except.ok "Cookie-based" ∧
    extract_auth_model [c6BearerReq] = Except.ok "JWT Bearer" ∧
    ¬ extract_auth_model [c6CookieReq, c6BearerReq]
        = Except.ok "JWT Bearer" := by
  refine ⟨rfl, rfl, ?_⟩
  intro h
  rw [show extract_auth_model [c6CookieReq, c6BearerReq]
      = Except.ok "Cookie-based" from rfl] at h
  injection h with h2
  exact absurd h2 (by decide)

/-- C6 (amended): the scan is sequential and first-decider-wins — the
first request carrying an Authorization or a Cookie header decides the
auth model (Authorization checked before Cookie within a request:
Bearer, then Basic, then the value's scheme word), and `"Unknown"` is
returned only when no request carries either header. -/
theorem auth_model_first_request_decides (reqs : List Request) :
    extract_auth_model reqs
      = (reqs.findSome? requestAuthDecision).getD (Except.ok "Unknown") := by
  induction reqs with
  | nil => rfl
  | cons r rest ih =>
    cases hA : headerGet r.headers "Authorization" with
    | some v =>
      by_cases hb : pyStartsWith v "Bearer" = true
      · simp [extract_auth_model, List.findSome?_cons, requestAuthDecision, hA, hb]
      · by_cases hba : pyStartsWith v "Basic" = true
        · simp [extract_auth_model, List.findSome?_cons, requestAuthDecision,
            hA, hb, hba]
        · simp [extract_auth_model, List.findSome?_cons, requestAuthDecision,
            hA, hb, hba]
    | none =>
      cases hC : headerGet r.headers "Cookie" with
      | some c =>
        simp [extract_auth_model, List.findSome?_cons, requestAuthDecision, hA, hC]
      | none =>
        simp only [extract_auth_model, List.findSome?_cons, requestAuthDecision,
          hA, hC]
        exact ih

theorem find?_cons_true {α : Type} (p : α → Bool) (a : α) (l : List α)
    (h : p a = true) : List.find? p (a :: l) = Option.some a := by
  simp [List.find?, h]

theorem find?_cons_false {α : Type} (p : α → Bool) (a : α) (l : List α)
    (h : p a = false) : List.find? p (a :: l) = List.find? p l := by
  simp [List.find?, h]

theorem pyMaxBy_first_max :
    ∀ (rest : List (String × Nat)) (best : String × Nat),
      Option.some (pyMaxBy best rest)
        = ((best :: rest).find? (fun kv => kv.2 == maxCount (best :: rest))).map
            Prod.fst := by
  intro rest
  induction rest with
  | nil =>
    intro best
    have h : (best.2 == maxCount [best]) = true := by
      simp [maxCount]
    rw [find?_cons_true (fun kv : String × Nat => kv.2 == maxCount [best])
      best [] h]
    rfl
  | cons p t ih =>
    intro best
    by_cases hgt : best.2 < p.2
    · have hple2 : p.2 ≤ Nat.max p.2 (maxCount t) := Nat.le_max_left _ _
      have hM : maxCount (best :: p :: t) = maxCount (p :: t) := by
        show Nat.max best.2 (Nat.max p.2 (maxCount t)) = Nat.max p.2 (maxCount t)
        exact Nat.max_eq_right (le_of_lt (lt_of_lt_of_le hgt hple2))
      have hlt : best.2 < maxCount (p :: t) := lt_of_lt_of_le hgt hple2
      have hbest : (best.2 == maxCount (best :: p :: t)) = false := by
        rw [hM, beq_eq_false_iff_ne]
        exact Nat.ne_of_lt hlt
      simp only [pyMaxBy, if_pos hgt]
      rw [find?_cons_false (fun kv : String × Nat =>
        kv.2 == maxCount (best :: p :: t)) best (p :: t) hbest]
      simp only [hM]
      exact ih p
    · have hple : p.2 ≤ best.2 := Nat.le_of_not_lt hgt
      have hM : maxCount (best :: p :: t) = maxCount (best :: t) := by
        show Nat.max best.2 (Nat.max p.2 (maxCount t)) = Nat.max best.2 (maxCount t)
        rcases Nat.le_total p.2 (maxCount t) with hc | hc
        · have h1 : Nat.max p.2 (maxCount t) = maxCount t := Nat.max_eq_right hc
          rw [h1]
        · have h1 : Nat.max p.2 (maxCount t) = p.2 := Nat.max_eq_left hc
          have h2 : Nat.max best.2 p.2 = best.2 := Nat.max_eq_left hple
          have h3 : Nat.max best.2 (maxCount t) = best.2 :=
            Nat.max_eq_left (le_trans hc hple)
          rw [h1, h2, h3]
      simp only [pyMaxBy, if_neg hgt]
      rw [ih best]
      simp only [hM]
      by_cases hb : (best.2 == maxCount (best :: t)) = true
      · rw [find?_cons_true (fun kv : String × Nat =>
            kv.2 == maxCount (best :: t)) best t hb,
          find?_cons_true (fun kv : String × Nat =>
            kv.2 == maxCount (best :: t)) best (p :: t) hb]
      · have hb' : (best.2 == maxCount (best :: t)) = false := by
          cases hx : (best.2 == maxCount (best :: t)) with
          | false => rfl
          | true => exact absurd hx hb
        have hbne : best.2 ≠ maxCount (best :: t) := by
          rw [beq_eq_false_iff_ne] at hb'
          exact hb'
        have hbleM : best.2 ≤ maxCount (best :: t) := by
          show best.2 ≤ Nat.max best.2 (maxCount t)
          exact Nat.le_max_left _ _
        have hp' : (p.2 == maxCount (best :: t)) = false := by
          rw [beq_eq_false_iff_ne]
          intro heq
          omega
        rw [find?_cons_false (fun kv : String × Nat =>
            kv.2 == maxCount (best :: t)) best t hb',
          find?_cons_false (fun kv : String × Nat =>
            kv.2 == maxCount (best :: t)) best (p :: t) hb',
          find?_cons_false (fun kv : String × Nat =>
            kv.2 == maxCount (best :: t)) p t hp']

/-- Counterexample for C7: with one request to `/zeta/x` and one to
`/api/y` the two patterns tie at count 1; the code returns the first
inserted pattern `/zeta/*`, not the lexicographically smaller `/api/*`
the claim requires. -/
theorem endpoint_pattern_tie_first_occurrence_counterexample :
    extract_endpoint_pattern [c7ReqA, c7ReqB] = "/zeta/*" ∧
    buildPatterns [c7ReqA, c7ReqB] = [("/zeta/*", 1), ("/api/*", 1)] ∧
    ("/api/*".data < "/zeta/*".data) ∧
    ¬ extract_endpoint_pattern [c7ReqA, c7ReqB] = "/api/*" := by
  refine ⟨rfl, rfl, by decide, ?_⟩
  intro h
  rw [show extract_endpoint_pattern [c7ReqA, c7ReqB] = "/zeta/*" from rfl] at h
  exact absurd h (by decide)

/-- C7 (amended): `endpoint_pattern` is the most frequent
first-path-segment pattern, and ties are broken by earliest first
occurrence in the request sequence (the insertion order of the counter
map), not lexicographically; with no countable path the result is `/`. -/
theorem endpoint_pattern_first_max_by_occurrence (reqs : List Request) :
    extract_endpoint_pattern reqs
      = (match buildPatterns reqs with
         | [] => "/"
         | kv :: rest =>
           (((kv :: rest).find? (fun p => p.2 == maxCount (kv :: rest))).map
               Prod.fst).getD "/") := by
  unfold extract_endpoint_pattern
  cases hbp : buildPatterns reqs with
  | nil => rfl
  | cons kv rest =>
    dsimp only
    rw [← pyMaxBy_first_max rest kv]
    rfl

/-! ## Regex-match handler theorems -/

/-- Counterexample for C8: `regex_match` is not total over all parameter
values and context states — with one previous output and parameter
`source = "1"`, `context.previous_outputs[int("1")]` raises IndexError
across the handler boundary instead of returning a `StepResult`. -/
theorem regex_match_out_of_range_source_raises :
    regexMatchExecute c8Search c8Step c8Ctx
      = Except.error (PyErr.indexError "list index out of range") := rfl

/-- C8 (amended): the handler returns `StepResult`s with explicit stderr
on its handled paths (empty previous outputs; resolved source with a
regex decision), but raises when the integer source index is out of
range for the current previous outputs. -/
theorem regex_match_behavior (search : SearchFn) (step : Step)
    (ctx : ExecutionContext) :
    (ctx.previous_outputs = [] →
      regexMatchExecute search step ctx = Except.ok noOutputsResult) ∧
    (∀ i : Int,
      paramGet step.parameters "source" (Value.str "last") = Value.int i →
      ctx.previous_outputs ≠ [] →
      (i < -(ctx.previous_outputs.length : Int) ∨
        (ctx.previous_outputs.length : Int) ≤ i) →
      regexMatchExecute search step ctx
        = Except.error (PyErr.indexError "list index out of range")) ∧
    (∀ patternS source : String,
      paramGet step.parameters "pattern" (Value.str step.command)
        = Value.str patternS →
      paramGet step.parameters "source" (Value.str "last") = Value.str "last" →
      ctx.previous_outputs ≠ [] →
      pyIndex? ctx.previous_outputs (-1) = Option.some source →
      search patternS source = Except.ok Option.none →
      regexMatchExecute search step ctx = Except.ok unmatchedResult) := by
  refine ⟨?_, ?_, ?_⟩
  · intro hempty
    simp [regexMatchExecute, hempty, noOutputsResult]
  · intro i hsrc hne hrange
    have hfalse : ctx.previous_outputs.isEmpty = false := by
      cases hpo : ctx.previous_outputs with
      | nil => exact absurd hpo hne
      | cons a t => rfl
    have hnone := (pyIndex?_eq_none_iff ctx.previous_outputs i).mpr hrange
    simp only [regexMatchExecute, hsrc, hfalse, Bool.false_eq_true, if_false,
      valueEqStr, pyInt, pyIndexE, hnone]
  · intro patternS source hpat hsrc hne hlast hsearch
    have hfalse : ctx.previous_outputs.isEmpty = false := by
      cases hpo : ctx.previous_outputs with
      | nil => exact absurd hpo hne
      | cons a t => rfl
    simp only [regexMatchExecute, hpat, hsrc, hfalse, Bool.false_eq_true,
      if_false, valueEqStr, pyIndexE, hlast]
    rw [if_pos (by decide)]
    dsimp only
    rw [hsearch]
    rfl

/-- Witness for the amended C8: a step whose `source` parameter is the
integer 5 against a single previous output raises IndexError. -/
theorem regex_match_behavior_witness :
    regexMatchExecute c8Search c8StepInt c8Ctx
      = Except.error (PyErr.indexError "list index out of range") :=
  (regex_match_behavior c8Search c8StepInt c8Ctx).2.1 5 rfl (by decide)
    (by decide)

/-! ## Recon response_diff theorems -/

/-- Counterexample for C9: with a one-flow capture, `response_diff`
called with flow index -2 — a negative index that denotes no flow —
raises IndexError instead of returning the serialized error object. -/
theorem response_diff_negative_index_raises :
    handle_response_diff [c9Flow] (-2) 0
      = Except.error (PyErr.indexError "list index out of range") ∧
    (-2 : Int) < -((([c9Flow] : List Flow)).length : Int) := by
  exact ⟨rfl, by decide⟩

/-- C9 (amended): indices at or above the flow count return the explicit
error object; pairs of indices that each denote a flow (including
negative Python-style indices) return the diff report; an index below
minus the flow count raises IndexError. -/
theorem response_diff_index_handling (flows : List Flow) (a b : Int) :
    ((a ≥ (flows.length : Int) ∨ b ≥ (flows.length : Int)) →
      handle_response_diff flows a b
        = Except.ok (DiffOutput.errorObj
            ("Flow index out of range (total: " ++ toString flows.length ++ ")"))) ∧
    (a < (flows.length : Int) → b < (flows.length : Int) →
      -(flows.length : Int) ≤ a → -(flows.length : Int) ≤ b →
      ∃ fa fb, pyIndex? flows a = Option.some fa ∧
        pyIndex? flows b = Option.some fb ∧
        handle_response_diff flows a b
          = Except.ok (DiffOutput.report
              (mkDiff a b (flowDetail fa) (flowDetail fb)))) ∧
    (a < (flows.length : Int) → b < (flows.length : Int) →
      a < -(flows.length : Int) →
      handle_response_diff flows a b
        = Except.error (PyErr.indexError "list index out of range")) := by
  refine ⟨?_, ?_, ?_⟩
  · intro hge
    simp only [handle_response_diff, if_pos hge]
  · intro ha hb hna hnb
    have hga : ¬ (a ≥ (flows.length : Int) ∨ b ≥ (flows.length : Int)) := by
      push_neg
      exact ⟨ha, hb⟩
    have hsa : ¬ pyIndex? flows a = Option.none := by
      rw [pyIndex?_eq_none_iff]
      push_neg
      omega
    have hsb : ¬ pyIndex? flows b = Option.none := by
      rw [pyIndex?_eq_none_iff]
      push_neg
      omega
    cases hfa : pyIndex? flows a with
    | none => exact absurd hfa hsa
    | some fa =>
      cases hfb : pyIndex? flows b with
      | none => exact absurd hfb hsb
      | some fb =>
        refine ⟨fa, fb, rfl, rfl, ?_⟩
        simp only [handle_response_diff, if_neg hga, pyIndexE, hfa, hfb]
  · intro ha hb hlow
    have hga : ¬ (a ≥ (flows.length : Int) ∨ b ≥ (flows.length : Int)) := by
      push_neg
      exact ⟨ha, hb⟩
    have hnone : pyIndex? flows a = Option.none := by
      rw [pyIndex?_eq_none_iff]
      left
      exact hlow
    simp only [handle_response_diff, if_neg hga, pyIndexE, hnone]

/-- Witness for the amended C9: the in-range negative index -1 paired
with 0 on a one-flow capture produces the diff report. -/
theorem response_diff_index_handling_witness :
    ∃ fa fb, pyIndex? [c9Flow] (-1) = Option.some fa ∧
      pyIndex? [c9Flow] 0 = Option.some fb ∧
      handle_response_diff [c9Flow] (-1) 0
        = Except.ok (DiffOutput.report
            (mkDiff (-1) 0 (flowDetail fa) (flowDetail fb))) :=
  (response_diff_index_handling [c9Flow] (-1) 0).2.1 (by decide) (by decide)
    (by decide) (by decide)

end LLMitm
